import Mathlib

/-!
Verification of the kopia local-cache subsystem: a shallow embedding of the
committed-content-index disk cache (package `content`:
`diskCommittedContentIndexCache` with `indexBlobPath`, `hasIndexBlobID`,
`addContentToCache`, `writeTempFileAtomic`, `expireUnused`,
`mmapOpenWithRetry`) and of the block-cache constructor (package `block`:
`newBlockCache`).

Modelling choices:
* OS filesystem calls (stat, CreateTemp, MkdirAll, file write/close, rename,
  ReadDir, Remove) are abstracted as an interface `Os σ` threaded through an
  explicit state `σ`.  The cache functions are translated from the Go source
  over that interface.  Two instances are provided: `diskOs`, a deterministic
  in-memory filesystem on which every OS call behaves normally, and
  `scriptOs`, a scripted instance whose call outcomes are drawn from queues,
  used to exercise the error-handling paths.
* File paths are relative to the cache directory `c.dirname`, which is fixed
  for a cache instance (the Go code always joins it with `filepath.Join`).
* Go `time.Duration` values are integer nanoseconds, as in Go's `time`
  package; timestamps are integers.
* Go error values are modelled by their message strings; `errors.Wrap(err, m)`
  produces the message `m ++ ": " ++ err` (and is the identity on nil).
-/

namespace KopiaCache

/-- Byte payloads, as lists of byte values. -/
abbrev Bytes := List Nat

/-- Go time.Duration, in integer nanoseconds. -/
abbrev Duration := Int

/-- One millisecond in nanoseconds. -/
def millisecond : Duration := 1000000

/-- One second in nanoseconds. -/
def second : Duration := 1000 * millisecond

/-- One hour in nanoseconds. -/
def hour : Duration := 3600 * second

/-- Constant simpleIndexSuffix from the source: suffix of committed index
cache files. -/
def simpleIndexSuffix : String := ".sndx"

/-- Constant unusedCommittedContentIndexCleanupTime from the source: delete
unused committed index blobs after 1 hour. -/
def unusedCommittedContentIndexCleanupTime : Duration := 1 * hour

/-- Outcome of an os.Stat call, as the code distinguishes it: success,
a not-found error (os.IsNotExist), or any other failure. -/
inductive StatR
  | found
  | notFound
  | failure (msg : String)
deriving DecidableEq, Repr

/-- Error from os.CreateTemp, recording whether os.IsNotExist holds of it
together with its message. -/
structure CreateErr where
  isNotExist : Bool
  msg : String
deriving DecidableEq, Repr

/-- One entry of an ioutil.ReadDir listing: file name and modification time. -/
structure DirEntry where
  name : String
  modTime : Int
deriving DecidableEq, Repr

/-- Interface of the OS filesystem calls performed by the cache code, with an
explicit state sigma threaded through every call.  writeFile and closeFile
model the Write and Close methods of the open temp file, identified by its
name. -/
structure Os (σ : Type) where
  stat : σ → String → StatR × σ
  createTemp : σ → Except CreateErr String × σ
  mkdirAll : σ → σ
  writeFile : σ → String → Bytes → Option String × σ
  closeFile : σ → String → Option String × σ
  rename : σ → String → String → Option String × σ
  readDir : σ → Except String (List DirEntry) × σ
  remove : σ → String → Option String × σ

variable {σ : Type}

/-- Function indexBlobPath: the file name of an index blob in the cache
directory (paths are relative to c.dirname). -/
def indexBlobPath (indexBlobID : String) : String :=
  indexBlobID ++ simpleIndexSuffix

/-- Function hasIndexBlobID: existence check of the index blob file via
os.Stat; a not-found outcome is the normal answer (false, nil); any
other stat failure is wrapped with the message errors.Wrapf produces. -/
def hasIndexBlobID (os : Os σ) (s : σ) (indexBlobID : String) :
    Except String Bool × σ :=
  match os.stat s (indexBlobPath indexBlobID) with
  | (.found, s1) => (.ok true, s1)
  | (.notFound, s1) => (.ok false, s1)
  | (.failure m, s1) => (.error ("error checking " ++ indexBlobID ++ ": " ++ m), s1)

/-- Function writeTempFileAtomic: create a temp file in the cache directory,
retrying exactly once after os.MkdirAll when the first creation attempt
fails with a not-exist error; then write the data and close the file,
wrapping any failure. Returns the temp file name. -/
def writeTempFileAtomic (os : Os σ) (s : σ) (data : Bytes) :
    Except String String × σ :=
  let r0 := os.createTemp s
  let r1 :=
    match r0 with
    | (.error e, s0) =>
      if e.isNotExist then os.createTemp (os.mkdirAll s0) else (.error e, s0)
    | (.ok tf, s0) => (.ok tf, s0)
  match r1 with
  | (.error e, s1) => (.error ("can't create tmp file: " ++ e.msg), s1)
  | (.ok tf, s1) =>
    match os.writeFile s1 tf data with
    | (some m, s2) => (.error ("can't write to temp file: " ++ m), s2)
    | (none, s2) =>
      match os.closeFile s2 tf with
      | (some _, s3) => (.error "can't close tmp file", s3)
      | (none, s3) => (.ok tf, s3)

/-- Function addContentToCache: no-op success when the blob is already
cached; otherwise write a temp file and publish it with os.Rename; when the
rename fails, re-check existence and treat a present destination as success,
otherwise fail with the unsuccessful-index-write error naming the blob. -/
def addContentToCache (os : Os σ) (s : σ) (indexBlobID : String) (data : Bytes) :
    Option String × σ :=
  match hasIndexBlobID os s indexBlobID with
  | (.error e, s1) => (some e, s1)
  | (.ok true, s1) => (none, s1)
  | (.ok false, s1) =>
    match writeTempFileAtomic os s1 data with
    | (.error e, s2) => (some e, s2)
    | (.ok tmpFile, s2) =>
      match os.rename s2 tmpFile (indexBlobPath indexBlobID) with
      | (none, s3) => (none, s3)
      | (some _, s3) =>
        match hasIndexBlobID os s3 indexBlobID with
        | (.error e, s4) => (some e, s4)
        | (.ok true, s4) => (none, s4)
        | (.ok false, s4) =>
          (some ("unsuccessful index write of content \"" ++ indexBlobID ++ "\""), s4)

/-- Model of Go strings.HasSuffix, computed over the character lists of the
strings (String.endsWith of the Lean library is not used because it does not
reduce inside the kernel). -/
def hasSuffix (s sfx : String) : Bool :=
  sfx.data.isSuffixOf s.data

/-- Model of Go strings.TrimSuffix: drop the suffix when present, otherwise
return the string unchanged. -/
def trimSuffix (s sfx : String) : String :=
  if hasSuffix s sfx then ⟨s.data.take (s.data.length - sfx.data.length)⟩ else s

/-- Function expireUnused: list the cache directory, keep the entries whose
name carries the committed-index suffix and whose identifier is not in the
used set, and delete each such entry older than the cleanup window; a failed
os.Remove is only logged, and the sweep returns success. timeNow is the value
of the injected clock c.timeNow(). -/
def expireUnused (os : Os σ) (s : σ) (timeNow : Int) (used : List String) :
    Option String × σ :=
  match os.readDir s with
  | (.error e, s1) => (some ("can't list cache: " ++ e), s1)
  | (.ok entries, s1) =>
    let remaining := entries.filter fun ent =>
      hasSuffix ent.name simpleIndexSuffix &&
        !(used.contains (trimSuffix ent.name simpleIndexSuffix))
    let s2 := remaining.foldl (fun acc rem =>
      if timeNow - rem.modTime > unusedCommittedContentIndexCleanupTime then
        (os.remove acc rem.name).2
      else acc) s1
    (none, s2)

/-- Constant maxRetries of mmapOpenWithRetry. -/
def maxRetries : Nat := 8

/-- Constant startingDelay of mmapOpenWithRetry. -/
def startingDelay : Duration := 10 * millisecond

/-- Retry loop of mmapOpenWithRetry.  mopen k is the outcome of the k-th
mmap.Open call on the fixed path (a handle, modelled as a number, or an error
message); cur is the outcome of the last open, retryCount and nextDelay the
loop variables, slept the time slept so far.  Returns the final outcome, the
number of retries performed, and the total sleep time. -/
def mmapRetryLoop (mopen : Nat → Except String Nat) :
    Except String Nat → Nat → Duration → Duration →
    Except String Nat × Nat × Duration
  | .ok f, retryCount, _, slept => (.ok f, retryCount, slept)
  | .error e, retryCount, nextDelay, slept =>
    if h : retryCount < maxRetries then
      mmapRetryLoop mopen (mopen (retryCount + 1)) (retryCount + 1)
        (nextDelay * 2) (slept + nextDelay)
    else
      (.error e, retryCount, slept)
termination_by cur retryCount _ _ => maxRetries - retryCount
decreasing_by simp_wf; omega

/-- Result of mmapOpenWithRetry: the wrapped outcome, the number of retries
performed, and the total time slept. -/
structure MmapResult where
  result : Except String Nat
  retryCount : Nat
  totalSleep : Duration
deriving Repr

/-- Function mmapOpenWithRetry: attempt mmap.Open, retrying on failure up to
maxRetries times with exponential back-off starting at startingDelay; the
final error, if any, is wrapped as "mmap() error" (errors.Wrap is the
identity on a nil error). -/
def mmapOpenWithRetry (mopen : Nat → Except String Nat) : MmapResult :=
  match mmapRetryLoop mopen (mopen 0) 0 startingDelay 0 with
  | (.ok f, n, slept) => ⟨.ok f, n, slept⟩
  | (.error e, n, slept) => ⟨.error ("mmap() error: " ++ e), n, slept⟩

/-- Structure CachingOptions from package block. -/
structure CachingOptions where
  cacheDirectory : String
  maxCacheSizeBytes : Int
  maxListCacheDurationSec : Int
  hmacSecret : Bytes
deriving DecidableEq, Repr

/-- Startup actions of the disk block cache, in the order newBlockCache
performs them: the synchronous sweep, then launching the periodic
background sweep goroutine. -/
inductive InitStep
  | sweepDirectory
  | startSweepDirectoryPeriodically
deriving DecidableEq, Repr

/-- The diskBlockCache value as constructed by newBlockCache, with the
underlying storage st of type alpha and the record of startup actions. -/
structure DiskBlockCache (α : Type) where
  st : α
  directory : String
  maxSizeBytes : Int
  hmacSecret : Bytes
  listCacheDuration : Duration
  startup : List InitStep
deriving DecidableEq, Repr

/-- The blockCache value returned by newBlockCache: either the no-op
passthrough nullBlockCache wrapping the storage, or the disk variant. -/
inductive BlockCache (α : Type)
  | nullBlockCache (st : α)
  | diskBlockCache (c : DiskBlockCache α)
deriving DecidableEq, Repr

/-- Function newBlockCache: select the no-op variant when no size ceiling or
no cache directory is configured; otherwise build the disk variant, run one
synchronous sweep, and start the periodic background sweep. -/
def newBlockCache {α : Type} (st : α) (caching : CachingOptions) : BlockCache α :=
  if caching.maxCacheSizeBytes = 0 ∨ caching.cacheDirectory = "" then
    .nullBlockCache st
  else
    .diskBlockCache
      { st := st
        directory := caching.cacheDirectory
        maxSizeBytes := caching.maxCacheSizeBytes
        hmacSecret := caching.hmacSecret
        listCacheDuration := caching.maxListCacheDurationSec * second
        startup := [.sweepDirectory, .startSweepDirectoryPeriodically] }

/-- A file of the in-memory filesystem model: its content and modification
time. -/
structure FileEntry where
  content : Bytes
  modTime : Int
deriving DecidableEq, Repr

/-- State of the deterministic filesystem model diskOs: the cache directory
contents keyed by file name, a counter yielding fresh temp-file names, and
the current time used as modification time of written files. -/
@[ext]
structure DiskState where
  files : List (String × FileEntry)
  tempCounter : Nat
  now : Int
deriving DecidableEq, Repr

/-- Create or overwrite a file of the model filesystem. -/
def setFile (files : List (String × FileEntry)) (name : String) (e : FileEntry) :
    List (String × FileEntry) :=
  (name, e) :: files.filter fun p => !(name == p.1)

/-- Delete a file of the model filesystem (no-op when absent). -/
def delFile (files : List (String × FileEntry)) (name : String) :
    List (String × FileEntry) :=
  files.filter fun p => !(name == p.1)

/-- Deterministic filesystem instance of the Os interface on which every
call behaves normally: stat reports exactly the present files, temp files
get fresh counter-based names, writes append, rename moves, remove deletes. -/
def diskOs : Os DiskState where
  stat := fun s name =>
    (if (s.files.lookup name).isSome then .found else .notFound, s)
  createTemp := fun s =>
    (.ok ("tmp" ++ toString s.tempCounter),
     { s with
         files := setFile s.files ("tmp" ++ toString s.tempCounter) ⟨[], s.now⟩
         tempCounter := s.tempCounter + 1 })
  mkdirAll := fun s => s
  writeFile := fun s name data =>
    match s.files.lookup name with
    | some e => (none, { s with files := setFile s.files name ⟨e.content ++ data, s.now⟩ })
    | none => (some "file not open", s)
  closeFile := fun s _ => (none, s)
  rename := fun s oldName newName =>
    match s.files.lookup oldName with
    | some e => (none, { s with files := setFile (delFile s.files oldName) newName e })
    | none => (some "no such file", s)
  readDir := fun s => (.ok (s.files.map fun p => ⟨p.1, p.2.modTime⟩), s)
  remove := fun s name =>
    match s.files.lookup name with
    | some _ => (none, { s with files := delFile s.files name })
    | none => (some "no such file", s)

/-- Pop the head of a script queue, with a default outcome once the queue is
exhausted. -/
def qpop (q : List α) (d : α) : α × List α :=
  match q with
  | [] => (d, [])
  | x :: t => (x, t)

/-- State of the scripted Os instance: per-call outcome queues (an exhausted
queue yields the successful default), the read-dir outcome, a temp-name
counter, and instrumentation counters recording the calls performed. -/
structure ScriptState where
  statQ : List StatR
  createQ : List (Except CreateErr Unit)
  writeQ : List (Option String)
  closeQ : List (Option String)
  renameQ : List (Option String)
  removeQ : List (Option String)
  readDirR : Except String (List DirEntry)
  tempCounter : Nat
  createCalls : Nat
  mkdirCalls : Nat
  removeCalls : List String
deriving Repr

/-- Scripted instance of the Os interface: each call pops its outcome from
the corresponding queue and records itself in the instrumentation fields. -/
def scriptOs : Os ScriptState where
  stat := fun s _ =>
    let p := qpop s.statQ .notFound
    (p.1, { s with statQ := p.2 })
  createTemp := fun s =>
    let p := qpop s.createQ (.ok ())
    let name := "tmp" ++ toString s.tempCounter
    let s1 := { s with
      createQ := p.2
      tempCounter := s.tempCounter + 1
      createCalls := s.createCalls + 1 }
    match p.1 with
    | .ok _ => (.ok name, s1)
    | .error e => (.error e, s1)
  mkdirAll := fun s => { s with mkdirCalls := s.mkdirCalls + 1 }
  writeFile := fun s _ _ =>
    let p := qpop s.writeQ none
    (p.1, { s with writeQ := p.2 })
  closeFile := fun s _ =>
    let p := qpop s.closeQ none
    (p.1, { s with closeQ := p.2 })
  rename := fun s _ _ =>
    let p := qpop s.renameQ none
    (p.1, { s with renameQ := p.2 })
  readDir := fun s => (s.readDirR, s)
  remove := fun s name =>
    let p := qpop s.removeQ none
    (p.1, { s with removeQ := p.2, removeCalls := s.removeCalls ++ [name] })

/-- Build a script state from the outcome queues, with empty instrumentation. -/
def mkScript (sq : List StatR) (cq : List (Except CreateErr Unit))
    (wq clq rq remq : List (Option String))
    (rd : Except String (List DirEntry)) : ScriptState :=
  ⟨sq, cq, wq, clq, rq, remq, rd, 0, 0, 0, []⟩

/-! Helper lemmas about the model filesystem. -/

theorem lookup_setFile_self (files : List (String × FileEntry)) (name : String)
    (e : FileEntry) : (setFile files name e).lookup name = some e := by
  simp [setFile]

theorem filter_idem (q : α → Bool) (l : List α) :
    (l.filter q).filter q = l.filter q := by
  rw [List.filter_filter]
  exact List.filter_congr fun a _ => by simp

theorem setFile_setFile (files : List (String × FileEntry)) (name : String)
    (e1 e2 : FileEntry) :
    setFile (setFile files name e1) name e2 = setFile files name e2 := by
  simp [setFile, filter_idem]

theorem delFile_setFile (files : List (String × FileEntry)) (name : String)
    (e : FileEntry) :
    delFile (setFile files name e) name = delFile files name := by
  simp [setFile, delFile, filter_idem]

theorem delFile_of_lookup_none (files : List (String × FileEntry)) (name : String)
    (h : files.lookup name = none) : delFile files name = files := by
  induction files with
  | nil => rfl
  | cons p t ih =>
    obtain ⟨k, b⟩ := p
    rw [List.lookup_cons] at h
    cases hb : name == k with
    | true => rw [hb] at h; simp at h
    | false =>
      rw [hb] at h
      simp only [delFile, List.filter_cons, hb, Bool.not_false, if_true]
      have := ih h
      simp only [delFile] at this
      rw [this]

theorem lookup_filter_of_true (files : List (String × FileEntry))
    (q : String × FileEntry → Bool) (n : String) (h : ∀ e, q (n, e) = true) :
    (files.filter q).lookup n = files.lookup n := by
  induction files with
  | nil => rfl
  | cons p t ih =>
    obtain ⟨k, b⟩ := p
    cases hb : n == k with
    | false =>
      cases hq : q (k, b) with
      | true => simp [List.filter_cons, hq, List.lookup_cons, hb, ih]
      | false => simp [List.filter_cons, hq, List.lookup_cons, hb, ih]
    | true =>
      have hnk : n = k := by simpa using hb
      subst hnk
      simp [List.filter_cons, h b, List.lookup_cons]

theorem keys_nodup_mem_eq {l : List (String × FileEntry)}
    (hnd : (l.map Prod.fst).Nodup) {a : String} {b c : FileEntry}
    (hb : (a, b) ∈ l) (hc : (a, c) ∈ l) : b = c := by
  induction l with
  | nil => simp at hb
  | cons p t ih =>
    rw [List.map_cons, List.nodup_cons] at hnd
    rcases List.mem_cons.mp hb with rb | rb <;>
      rcases List.mem_cons.mp hc with rc | rc
    · exact congrArg Prod.snd (rb.trans rc.symm)
    · rw [← rb] at hnd; exact absurd (List.mem_map.mpr ⟨(a, c), rc, rfl⟩) hnd.1
    · rw [← rc] at hnd; exact absurd (List.mem_map.mpr ⟨(a, b), rb, rfl⟩) hnd.1
    · exact ih hnd.2 rb rc

/-! Behaviour of the source functions on the deterministic filesystem. -/

theorem hasIndexBlobID_disk (s : DiskState) (id : String) :
    hasIndexBlobID diskOs s id =
      (if (s.files.lookup (indexBlobPath id)).isSome then .ok true else .ok false, s) := by
  unfold hasIndexBlobID
  simp only [diskOs]
  cases h : (s.files.lookup (indexBlobPath id)).isSome <;> simp [h]

theorem writeTempFileAtomic_disk (s : DiskState) (data : Bytes) :
    writeTempFileAtomic diskOs s data =
      (.ok ("tmp" ++ toString s.tempCounter),
       { s with
           files := setFile s.files ("tmp" ++ toString s.tempCounter) ⟨data, s.now⟩
           tempCounter := s.tempCounter + 1 }) := by
  unfold writeTempFileAtomic
  simp only [diskOs, lookup_setFile_self, setFile_setFile, List.nil_append]

theorem addContentToCache_disk_present (s : DiskState) (id : String) (data : Bytes)
    (h : (s.files.lookup (indexBlobPath id)).isSome = true) :
    addContentToCache diskOs s id data = (none, s) := by
  unfold addContentToCache
  rw [hasIndexBlobID_disk, h]
  simp

theorem addContentToCache_disk_absent (s : DiskState) (id : String) (data : Bytes)
    (h : s.files.lookup (indexBlobPath id) = none) :
    addContentToCache diskOs s id data =
      (none,
       { s with
           files := setFile (delFile s.files ("tmp" ++ toString s.tempCounter))
             (indexBlobPath id) ⟨data, s.now⟩
           tempCounter := s.tempCounter + 1 }) := by
  unfold addContentToCache
  rw [hasIndexBlobID_disk, h]
  simp only [Option.isSome_none, Bool.false_eq_true, if_false]
  rw [writeTempFileAtomic_disk]
  simp only [diskOs, lookup_setFile_self, delFile_setFile]

theorem remove_disk (s : DiskState) (name : String) :
    (diskOs.remove s name).2 = { s with files := delFile s.files name } := by
  cases h : s.files.lookup name with
  | some e => simp [diskOs, h]
  | none => simp [diskOs, h, delFile_of_lookup_none s.files name h]

theorem expire_fold_disk (tNow : Int) (rems : List DirEntry) :
    ∀ s : DiskState,
    rems.foldl (fun acc rem =>
        if tNow - rem.modTime > unusedCommittedContentIndexCleanupTime then
          (diskOs.remove acc rem.name).2
        else acc) s =
      { s with files := s.files.filter fun p =>
          !(rems.any fun r =>
            decide (tNow - r.modTime > unusedCommittedContentIndexCleanupTime) &&
              (r.name == p.1)) } := by
  induction rems with
  | nil => intro s; simp
  | cons r rs ih =>
    intro s
    rw [List.foldl_cons, ih]
    by_cases hr : tNow - r.modTime > unusedCommittedContentIndexCleanupTime
    · rw [if_pos hr, remove_disk]
      apply DiskState.ext
      · show ((delFile s.files r.name).filter _) = s.files.filter _
        simp only [delFile, List.filter_filter]
        refine List.filter_congr fun a _ => ?_
        simp only [List.any_cons, Bool.not_or, decide_eq_true hr, Bool.true_and]
        exact Bool.and_comm _ _
      · rfl
      · rfl
    · rw [if_neg hr]
      apply DiskState.ext
      · show (s.files.filter _) = s.files.filter _
        refine List.filter_congr fun a _ => ?_
        simp [List.any_cons, decide_eq_false hr]
      · rfl
      · rfl

/-! Claim theorems. -/

/-- C7: in the publish protocol of addContentToCache, when the destination
file for the identifier already exists under its final name, the call
returns no error and leaves the filesystem state completely unchanged — in
particular no temporary file is created or left behind on disk. -/
theorem addContentToCache_existing_destination_noop
    (s : DiskState) (id : String) (data : Bytes) (e : FileEntry)
    (h : s.files.lookup (indexBlobPath id) = some e) :
    addContentToCache diskOs s id data = (none, s) := by
  apply addContentToCache_disk_present
  rw [h]; rfl

/-- Witness for C7 at a concrete cache state holding the destination file. -/
theorem addContentToCache_existing_destination_noop_witness :
    addContentToCache diskOs ⟨[("a.sndx", ⟨[1], 0⟩)], 0, 0⟩ "a" [2, 3] =
      (none, ⟨[("a.sndx", ⟨[1], 0⟩)], 0, 0⟩) :=
  addContentToCache_existing_destination_noop _ "a" [2, 3] ⟨[1], 0⟩ rfl

/-- C1: addContentToCache is idempotent: when the blob identifier is already
cached the call succeeds without writing anything, and calling it twice with
the same identifier starting from an empty cache directory succeeds both
times and leaves exactly one file on disk, whose content is the payload of
the first (successful) call. -/
theorem addContentToCache_idempotent (s : DiskState) (id : String)
    (data1 data2 : Bytes) (k : Nat) (t : Int) :
    ((hasIndexBlobID diskOs s id).1 = .ok true →
      addContentToCache diskOs s id data1 = (none, s)) ∧
    ((addContentToCache diskOs ⟨[], k, t⟩ id data1).1 = none ∧
     (addContentToCache diskOs (addContentToCache diskOs ⟨[], k, t⟩ id data1).2
        id data2).1 = none ∧
     ((addContentToCache diskOs (addContentToCache diskOs ⟨[], k, t⟩ id data1).2
        id data2).2).files = [(indexBlobPath id, ⟨data1, t⟩)]) := by
  constructor
  · intro h
    rw [hasIndexBlobID_disk] at h
    by_cases hs : (s.files.lookup (indexBlobPath id)).isSome
    · exact addContentToCache_disk_present s id data1 hs
    · simp [hs] at h
  · have h0 : (([] : List (String × FileEntry)).lookup (indexBlobPath id)) = none := rfl
    have h1 := addContentToCache_disk_absent ⟨[], k, t⟩ id data1 h0
    have hfiles : setFile (delFile ([] : List (String × FileEntry))
        ("tmp" ++ toString k)) (indexBlobPath id) ⟨data1, t⟩ =
        [(indexBlobPath id, ⟨data1, t⟩)] := by
      simp [setFile, delFile]
    rw [hfiles] at h1
    rw [h1]
    have h2 := addContentToCache_disk_present
      ⟨[(indexBlobPath id, ⟨data1, t⟩)], k + 1, t⟩ id data2
      (by rw [List.lookup_cons_self]; rfl)
    exact ⟨rfl, by rw [h2], by rw [h2]⟩

/-- Witness for C1: the already-cached branch at a concrete state, and the
double call from the empty directory with concrete payloads. -/
theorem addContentToCache_idempotent_witness :
    addContentToCache diskOs ⟨[("b.sndx", ⟨[7], 5⟩)], 2, 5⟩ "b" [1] =
      (none, ⟨[("b.sndx", ⟨[7], 5⟩)], 2, 5⟩) ∧
    ((addContentToCache diskOs (addContentToCache diskOs ⟨[], 0, 0⟩ "b" [1]).2
        "b" [2]).2).files = [(indexBlobPath "b", ⟨[1], 0⟩)] :=
  ⟨(addContentToCache_idempotent ⟨[("b.sndx", ⟨[7], 5⟩)], 2, 5⟩ "b" [1] [2] 2 5).1 rfl,
   (addContentToCache_idempotent ⟨[], 0, 0⟩ "b" [1] [2] 0 0).2.2.2⟩

/-- C5: hasIndexBlobID is a stat-based existence check: a successful stat is
(true, nil), a not-found stat is the normal (false, nil) outcome — never an
error — and any other stat failure is surfaced as a wrapped error; moreover,
on the filesystem model, it answers true immediately after any successful
addContentToCache of the same identifier. -/
theorem hasIndexBlobID_stat_semantics (σ : Type) (os : Os σ) (s s1 : σ)
    (indexBlobID : String) (msg : String) :
    (os.stat s (indexBlobPath indexBlobID) = (.found, s1) →
      hasIndexBlobID os s indexBlobID = (.ok true, s1)) ∧
    (os.stat s (indexBlobPath indexBlobID) = (.notFound, s1) →
      hasIndexBlobID os s indexBlobID = (.ok false, s1)) ∧
    (os.stat s (indexBlobPath indexBlobID) = (.failure msg, s1) →
      hasIndexBlobID os s indexBlobID =
        (.error ("error checking " ++ indexBlobID ++ ": " ++ msg), s1)) ∧
    (∀ (sd : DiskState) (id : String) (data : Bytes),
      (addContentToCache diskOs sd id data).1 = none ∧
      hasIndexBlobID diskOs (addContentToCache diskOs sd id data).2 id =
        (.ok true, (addContentToCache diskOs sd id data).2)) := by
  refine ⟨?_, ?_, ?_, ?_⟩
  · intro h; unfold hasIndexBlobID; rw [h]
  · intro h; unfold hasIndexBlobID; rw [h]
  · intro h; unfold hasIndexBlobID; rw [h]
  · intro sd id data
    by_cases hs : (sd.files.lookup (indexBlobPath id)).isSome
    · rw [addContentToCache_disk_present sd id data hs]
      exact ⟨rfl, by rw [hasIndexBlobID_disk]; simp [hs]⟩
    · have hn : sd.files.lookup (indexBlobPath id) = none := by
        cases hh : sd.files.lookup (indexBlobPath id) with
        | none => rfl
        | some e => rw [hh] at hs; simp at hs
      rw [addContentToCache_disk_absent sd id data hn]
      refine ⟨rfl, ?_⟩
      rw [hasIndexBlobID_disk]
      simp [lookup_setFile_self]

/-- Witness for C5: the three stat outcomes on the scripted filesystem, and
the add-then-check round trip at a concrete state. -/
theorem hasIndexBlobID_stat_semantics_witness :
    hasIndexBlobID scriptOs (mkScript [.found] [] [] [] [] [] (.ok [])) "x" =
      (.ok true, { mkScript [.found] [] [] [] [] [] (.ok []) with statQ := [] }) ∧
    hasIndexBlobID scriptOs (mkScript [.notFound] [] [] [] [] [] (.ok [])) "x" =
      (.ok false, { mkScript [.notFound] [] [] [] [] [] (.ok []) with statQ := [] }) ∧
    hasIndexBlobID scriptOs (mkScript [.failure "disk on fire"] [] [] [] [] [] (.ok [])) "x" =
      (.error ("error checking " ++ "x" ++ ": " ++ "disk on fire"),
       { mkScript [.failure "disk on fire"] [] [] [] [] [] (.ok []) with statQ := [] }) ∧
    hasIndexBlobID diskOs (addContentToCache diskOs ⟨[], 0, 9⟩ "x" [4]).2 "x" =
      (.ok true, (addContentToCache diskOs ⟨[], 0, 9⟩ "x" [4]).2) :=
  ⟨(hasIndexBlobID_stat_semantics ScriptState scriptOs _ _ "x" "m").1 rfl,
   (hasIndexBlobID_stat_semantics ScriptState scriptOs _ _ "x" "m").2.1 rfl,
   (hasIndexBlobID_stat_semantics ScriptState scriptOs _ _ "x" "disk on fire").2.2.1 rfl,
   ((hasIndexBlobID_stat_semantics ScriptState scriptOs
      (mkScript [] [] [] [] [] [] (.ok [])) (mkScript [] [] [] [] [] [] (.ok []))
      "x" "m").2.2.2 ⟨[], 0, 9⟩ "x" [4]).2⟩

/-- C2: when the rename of the temp file onto the destination path fails,
addContentToCache re-checks existence of the destination: if it now exists
the call returns success, otherwise it returns the commit-failed error
naming the index blob identifier. -/
theorem addContentToCache_rename_failure_recheck (σ : Type) (os : Os σ)
    (s s1 s2 s3 s4 : σ) (id : String) (data : Bytes) (tf m : String)
    (h1 : hasIndexBlobID os s id = (.ok false, s1))
    (h2 : writeTempFileAtomic os s1 data = (.ok tf, s2))
    (h3 : os.rename s2 tf (indexBlobPath id) = (some m, s3)) :
    (hasIndexBlobID os s3 id = (.ok true, s4) →
      addContentToCache os s id data = (none, s4)) ∧
    (hasIndexBlobID os s3 id = (.ok false, s4) →
      addContentToCache os s id data =
        (some ("unsuccessful index write of content \"" ++ id ++ "\""), s4)) := by
  constructor <;> intro h4 <;> unfold addContentToCache <;>
    simp only [h1, h2, h3, h4]

/-- Witness for C2: scripted runs where the rename fails and the re-check
finds the destination present, respectively still absent. -/
theorem addContentToCache_rename_failure_recheck_witness :
    (addContentToCache scriptOs
      (mkScript [.notFound, .found] [] [] [] [some "boom"] [] (.ok [])) "idx" [1]).1 =
      none ∧
    (addContentToCache scriptOs
      (mkScript [.notFound, .notFound] [] [] [] [some "boom"] [] (.ok [])) "idx" [1]).1 =
      some ("unsuccessful index write of content \"" ++ "idx" ++ "\"") :=
  ⟨congrArg Prod.fst ((addContentToCache_rename_failure_recheck ScriptState scriptOs
      (mkScript [.notFound, .found] [] [] [] [some "boom"] [] (.ok []))
      _ _ _ _ "idx" [1] _ "boom" rfl rfl rfl).1 rfl),
   congrArg Prod.fst ((addContentToCache_rename_failure_recheck ScriptState scriptOs
      (mkScript [.notFound, .notFound] [] [] [] [some "boom"] [] (.ok []))
      _ _ _ _ "idx" [1] _ "boom" rfl rfl rfl).2 rfl)⟩

/-- C6: newBlockCache returns the no-op passthrough variant exactly when the
configured size ceiling is zero or the cache directory is empty; otherwise
it builds the disk variant whose startup performs one synchronous sweep of
the directory and then launches the periodic background sweep, in that
order. -/
theorem newBlockCache_variant_selection (α : Type) (st : α)
    (caching : CachingOptions) :
    (newBlockCache st caching = .nullBlockCache st ↔
      caching.maxCacheSizeBytes = 0 ∨ caching.cacheDirectory = "") ∧
    (¬(caching.maxCacheSizeBytes = 0 ∨ caching.cacheDirectory = "") →
      newBlockCache st caching = .diskBlockCache
        ⟨st, caching.cacheDirectory, caching.maxCacheSizeBytes,
         caching.hmacSecret, caching.maxListCacheDurationSec * second,
         [.sweepDirectory, .startSweepDirectoryPeriodically]⟩) := by
  by_cases h : caching.maxCacheSizeBytes = 0 ∨ caching.cacheDirectory = ""
  · exact ⟨by simp [newBlockCache, h], fun hc => absurd h hc⟩
  · exact ⟨by simp [newBlockCache, h], fun _ => by simp [newBlockCache, h]⟩

/-- Witness for C6: a fully configured cache takes the disk variant with the
sweep-then-background startup, and an empty directory takes the no-op
variant. -/
theorem newBlockCache_variant_selection_witness :
    newBlockCache (0 : Nat) ⟨"d", 100, 7, [1]⟩ = .diskBlockCache
      ⟨0, "d", 100, [1], 7 * second,
       [.sweepDirectory, .startSweepDirectoryPeriodically]⟩ ∧
    newBlockCache (0 : Nat) ⟨"", 100, 7, [1]⟩ = .nullBlockCache 0 :=
  ⟨(newBlockCache_variant_selection Nat 0 ⟨"d", 100, 7, [1]⟩).2 (by decide),
   (newBlockCache_variant_selection Nat 0 ⟨"", 100, 7, [1]⟩).1.mpr (Or.inr rfl)⟩

theorem readDir_disk (s : DiskState) :
    diskOs.readDir s =
      (.ok (s.files.map fun p => (⟨p.1, p.2.modTime⟩ : DirEntry)), s) := rfl

theorem expire_any_eq (s : DiskState) (tNow : Int) (used : List String)
    (hnd : (s.files.map Prod.fst).Nodup) (p : String × FileEntry)
    (hp : p ∈ s.files) :
    (((s.files.map fun q => (⟨q.1, q.2.modTime⟩ : DirEntry)).filter fun ent =>
        hasSuffix ent.name simpleIndexSuffix &&
          !(used.contains (trimSuffix ent.name simpleIndexSuffix))).any fun r =>
      decide (tNow - r.modTime > unusedCommittedContentIndexCleanupTime) &&
        (r.name == p.1)) =
    (hasSuffix p.1 simpleIndexSuffix &&
      !(used.contains (trimSuffix p.1 simpleIndexSuffix)) &&
      decide (tNow - p.2.modTime > unusedCommittedContentIndexCleanupTime)) := by
  obtain ⟨p1, p2⟩ := p
  rw [Bool.eq_iff_iff]
  simp only [List.any_eq_true, List.mem_filter, List.mem_map, Bool.and_eq_true,
    beq_iff_eq, decide_eq_true_eq]
  constructor
  · rintro ⟨r, ⟨⟨q, hq, rfl⟩, hsuf, hun⟩, hexp, hname⟩
    obtain ⟨q1, q2⟩ := q
    simp only at hsuf hun hexp hname
    subst hname
    have hq2 : q2 = p2 := keys_nodup_mem_eq hnd hq hp
    subst hq2
    exact ⟨⟨hsuf, hun⟩, hexp⟩
  · rintro ⟨⟨hsuf, hun⟩, hexp⟩
    exact ⟨⟨p1, p2.modTime⟩, ⟨⟨(p1, p2), hp, rfl⟩, hsuf, hun⟩, hexp, rfl⟩

theorem expireUnused_disk (s : DiskState) (tNow : Int) (used : List String)
    (hnd : (s.files.map Prod.fst).Nodup) :
    expireUnused diskOs s tNow used =
      (none,
       { s with files := s.files.filter fun p =>
           !(hasSuffix p.1 simpleIndexSuffix &&
             !(used.contains (trimSuffix p.1 simpleIndexSuffix)) &&
             decide (tNow - p.2.modTime > unusedCommittedContentIndexCleanupTime)) }) := by
  unfold expireUnused
  simp only [readDir_disk]
  rw [expire_fold_disk]
  refine congrArg (fun l => ((none : Option String), { s with files := l })) ?_
  refine List.filter_congr fun p hp => ?_
  exact congrArg (fun b => !b) (expire_any_eq s tNow used hnd p hp)

/-- C3: expireUnused deletes exactly the committed-index-suffix files whose
identifier is outside the used set and whose modification time is more than
the one-hour retention window before now; an entry whose identifier is in
the used set survives regardless of age, and an entry younger than the
window survives regardless of use status. -/
theorem expireUnused_deletes_exactly_expired_unused (s : DiskState) (tNow : Int)
    (used : List String) (hnd : (s.files.map Prod.fst).Nodup) :
    expireUnused diskOs s tNow used =
      (none,
       { s with files := s.files.filter fun p =>
           !(hasSuffix p.1 simpleIndexSuffix &&
             !(used.contains (trimSuffix p.1 simpleIndexSuffix)) &&
             decide (tNow - p.2.modTime > unusedCommittedContentIndexCleanupTime)) }) ∧
    (∀ p ∈ s.files, trimSuffix p.1 simpleIndexSuffix ∈ used →
      p ∈ ((expireUnused diskOs s tNow used).2).files) ∧
    (∀ p ∈ s.files, tNow - p.2.modTime ≤ unusedCommittedContentIndexCleanupTime →
      p ∈ ((expireUnused diskOs s tNow used).2).files) := by
  have hmain := expireUnused_disk s tNow used hnd
  refine ⟨hmain, ?_, ?_⟩
  · intro p hp hu
    rw [hmain]
    refine List.mem_filter.mpr ⟨hp, ?_⟩
    have hc : used.contains (trimSuffix p.1 simpleIndexSuffix) = true :=
      List.elem_eq_true_of_mem hu
    simp [hc]
    exact Or.inl (Or.inr hu)
  · intro p hp hage
    rw [hmain]
    refine List.mem_filter.mpr ⟨hp, ?_⟩
    have hd : decide (tNow - p.2.modTime > unusedCommittedContentIndexCleanupTime)
        = false := decide_eq_false (by omega)
    simp [hd]

/-- Witness for C3: a directory with an old unused index file (deleted), an
old index file in the used set (kept), a fresh unused index file (kept). -/
theorem expireUnused_deletes_exactly_expired_unused_witness :
    expireUnused diskOs
      ⟨[("old.sndx", ⟨[1], 0⟩), ("keep.sndx", ⟨[2], 0⟩),
        ("new.sndx", ⟨[3], 7000000000000⟩)], 4, 0⟩ (2 * hour) ["keep"] =
      (none,
       ⟨[("keep.sndx", ⟨[2], 0⟩), ("new.sndx", ⟨[3], 7000000000000⟩)], 4, 0⟩) := by
  rw [(expireUnused_deletes_exactly_expired_unused
    ⟨[("old.sndx", ⟨[1], 0⟩), ("keep.sndx", ⟨[2], 0⟩),
      ("new.sndx", ⟨[3], 7000000000000⟩)], 4, 0⟩ (2 * hour) ["keep"] (by decide)).1]
  decide

/-- C10: expireUnused only ever considers files carrying the committed-index
suffix: the lookup of any name without that suffix — for example a leftover
temp file — is unchanged by the sweep regardless of its age; and when the
directory listing fails, the call returns the wrapped listing error with the
state untouched, so no file is deleted. -/
theorem expireUnused_only_index_suffix_files :
    (∀ (s : DiskState) (tNow : Int) (used : List String) (n : String),
      hasSuffix n simpleIndexSuffix = false →
      ((expireUnused diskOs s tNow used).2).files.lookup n = s.files.lookup n) ∧
    (∀ (sq : List StatR) (cq : List (Except CreateErr Unit))
       (wq clq rq remq : List (Option String)) (e : String) (tNow : Int)
       (used : List String),
      expireUnused scriptOs (mkScript sq cq wq clq rq remq (.error e)) tNow used =
        (some ("can't list cache: " ++ e), mkScript sq cq wq clq rq remq (.error e))) := by
  constructor
  · intro s tNow used n hn
    unfold expireUnused
    simp only [readDir_disk]
    rw [expire_fold_disk]
    show (s.files.filter _).lookup n = s.files.lookup n
    apply lookup_filter_of_true
    intro e2
    have hany : ((s.files.map fun q => (⟨q.1, q.2.modTime⟩ : DirEntry)).filter
        fun ent =>
          hasSuffix ent.name simpleIndexSuffix &&
            !(used.contains (trimSuffix ent.name simpleIndexSuffix))).any (fun r =>
        decide (tNow - r.modTime > unusedCommittedContentIndexCleanupTime) &&
          (r.name == n)) = false := by
      rw [List.any_eq_false]
      intro r hr
      have hrs : hasSuffix r.name simpleIndexSuffix = true :=
        (Bool.and_eq_true _ _ ▸ (List.mem_filter.mp hr).2).1
      intro hcontra
      have hname : r.name = n :=
        beq_iff_eq.mp (Bool.and_eq_true _ _ ▸ hcontra).2
      rw [hname] at hrs
      rw [hrs] at hn
      exact Bool.noConfusion hn
    rw [hany]
    rfl
  · intro sq cq wq clq rq remq e tNow used
    rfl

/-- Witness for C10: a ten-hour-old leftover temp file survives the sweep,
and a failing listing aborts the sweep with the wrapped error. -/
theorem expireUnused_only_index_suffix_files_witness :
    ((expireUnused diskOs ⟨[("tmp3", ⟨[1], 0⟩)], 0, 0⟩ (10 * hour) []).2).files.lookup
        "tmp3" =
      (⟨[("tmp3", ⟨[1], 0⟩)], 0, 0⟩ : DiskState).files.lookup "tmp3" ∧
    expireUnused scriptOs (mkScript [] [] [] [] [] [] (.error "eio")) 0 [] =
      (some ("can't list cache: " ++ "eio"), mkScript [] [] [] [] [] [] (.error "eio")) :=
  ⟨expireUnused_only_index_suffix_files.1 ⟨[("tmp3", ⟨[1], 0⟩)], 0, 0⟩ (10 * hour) []
      "tmp3" (by decide),
   expireUnused_only_index_suffix_files.2 [] [] [] [] [] [] "eio" 0 []⟩

theorem readDir_script (s : ScriptState) :
    scriptOs.readDir s = (s.readDirR, s) := rfl

theorem scriptFold_removeCalls (tNow : Int) (rems : List DirEntry) :
    ∀ s : ScriptState,
    (rems.foldl (fun acc rem =>
        if tNow - rem.modTime > unusedCommittedContentIndexCleanupTime then
          (scriptOs.remove acc rem.name).2
        else acc) s).removeCalls =
      s.removeCalls ++ ((rems.filter fun r =>
        decide (tNow - r.modTime > unusedCommittedContentIndexCleanupTime)).map
          DirEntry.name) := by
  induction rems with
  | nil => intro s; simp
  | cons r rs ih =>
    intro s
    rw [List.foldl_cons]
    by_cases hr : tNow - r.modTime > unusedCommittedContentIndexCleanupTime
    · rw [if_pos hr, ih]
      simp [scriptOs, List.filter_cons, decide_eq_true hr]
    · rw [if_neg hr, ih]
      simp [List.filter_cons, decide_eq_false hr]

/-- C9: in expireUnused a failure to delete an individual expired file is
never propagated to the caller and does not abort the processing of the
remaining candidates: whatever the scripted outcomes of the os.Remove calls,
the sweep still visits every expired unused candidate and returns success. -/
theorem expireUnused_remove_failures_not_propagated
    (entries : List DirEntry) (removeQ : List (Option String)) (tNow : Int)
    (used : List String) :
    (expireUnused scriptOs (mkScript [] [] [] [] [] removeQ (.ok entries))
        tNow used).1 = none ∧
    ((expireUnused scriptOs (mkScript [] [] [] [] [] removeQ (.ok entries))
        tNow used).2).removeCalls =
      (((entries.filter fun ent =>
          hasSuffix ent.name simpleIndexSuffix &&
            !(used.contains (trimSuffix ent.name simpleIndexSuffix))).filter fun r =>
          decide (tNow - r.modTime > unusedCommittedContentIndexCleanupTime)).map
        DirEntry.name) := by
  constructor
  · rfl
  · unfold expireUnused
    simp only [readDir_script, mkScript]
    rw [scriptFold_removeCalls]
    simp

theorem mmapRetryLoop_ok (mopen : Nat → Except String Nat) (f n : Nat)
    (d sl : Duration) :
    mmapRetryLoop mopen (.ok f) n d sl = (.ok f, n, sl) := by
  rw [mmapRetryLoop]

theorem mmapRetryLoop_err_step (mopen : Nat → Except String Nat) (e : String)
    (n : Nat) (d sl : Duration) (h : n < maxRetries) :
    mmapRetryLoop mopen (.error e) n d sl =
      mmapRetryLoop mopen (mopen (n + 1)) (n + 1) (d * 2) (sl + d) := by
  rw [mmapRetryLoop]
  simp [h]

theorem mmapRetryLoop_err_stop (mopen : Nat → Except String Nat) (e : String)
    (n : Nat) (d sl : Duration) (h : ¬n < maxRetries) :
    mmapRetryLoop mopen (.error e) n d sl = (.error e, n, sl) := by
  rw [mmapRetryLoop]
  simp [h]

theorem mmapRetryLoop_all_fail (mopen : Nat → Except String Nat)
    (m : Nat → String) (hm : ∀ k, k ≤ maxRetries → mopen k = .error (m k)) :
    ∀ (i j : Nat), maxRetries - j = i → j ≤ maxRetries → ∀ (d sl : Duration),
    mmapRetryLoop mopen (.error (m j)) j d sl =
      (.error (m maxRetries), maxRetries,
       sl + d * (2 ^ (maxRetries - j) - 1)) := by
  intro i
  induction i with
  | zero =>
    intro j hij hj d sl
    have hj8 : j = maxRetries := by omega
    subst hj8
    rw [mmapRetryLoop_err_stop _ _ _ _ _ (by omega)]
    have hz : maxRetries - maxRetries = 0 := by omega
    rw [hz]
    norm_num
  | succ i ih =>
    intro j hij hj d sl
    have hjlt : j < maxRetries := by omega
    rw [mmapRetryLoop_err_step _ _ _ _ _ hjlt, hm (j + 1) (by omega),
      ih (j + 1) (by omega) (by omega)]
    refine congrArg
      (fun x => ((.error (m maxRetries) : Except String Nat), maxRetries, x)) ?_
    have hpow : (2 : Int) ^ (maxRetries - j) = 2 * 2 ^ (maxRetries - (j + 1)) := by
      have hstep : maxRetries - j = (maxRetries - (j + 1)) + 1 := by omega
      rw [hstep, pow_succ]
      ring
    rw [hpow]
    ring

theorem mmapRetryLoop_reach_ok (mopen : Nat → Except String Nat) (j f : Nat)
    (hj : j ≤ maxRetries) (hok : mopen j = .ok f)
    (hfail : ∀ k, k < j → ∃ e, mopen k = .error e) :
    ∀ (i i0 : Nat), j - i0 = i → i0 ≤ j → ∀ (d sl : Duration),
    (mmapRetryLoop mopen (mopen i0) i0 d sl).1 = .ok f := by
  intro i
  induction i with
  | zero =>
    intro i0 hii hi0 d sl
    have hij : i0 = j := by omega
    subst hij
    rw [hok, mmapRetryLoop_ok]
  | succ i ih =>
    intro i0 hii hi0 d sl
    have hlt : i0 < j := by omega
    obtain ⟨e, he⟩ := hfail i0 hlt
    rw [he, mmapRetryLoop_err_step _ _ _ _ _ (by omega)]
    exact ih (i0 + 1) (by omega) (by omega) _ _

/-- C4: mmapOpenWithRetry retries a failed mapped open up to the fixed
ceiling of 8 retry attempts, sleeping 10ms before the first retry and
doubling before each further one (2550ms of worst-case total wait); when
every attempt fails, it returns the wrapped mapping error carrying the last
underlying error after the 8 retries and the full back-off wait, and when
some attempt within the budget succeeds, it returns the handle with no
error. -/
theorem mmapOpenWithRetry_retry_policy (mopen : Nat → Except String Nat)
    (m : Nat → String) (j f : Nat) :
    ((∀ k, k ≤ maxRetries → mopen k = .error (m k)) →
      mmapOpenWithRetry mopen =
        ⟨.error ("mmap() error: " ++ m maxRetries), maxRetries,
         2550 * millisecond⟩) ∧
    (j ≤ maxRetries → mopen j = .ok f →
      (∀ k, k < j → ∃ e, mopen k = .error e) →
      (mmapOpenWithRetry mopen).result = .ok f) := by
  constructor
  · intro hm
    unfold mmapOpenWithRetry
    rw [hm 0 (by omega),
      mmapRetryLoop_all_fail mopen m hm (maxRetries - 0) 0 rfl (by omega)]
    norm_num [maxRetries, startingDelay, millisecond]
  · intro hj hok hfail
    have h1 := mmapRetryLoop_reach_ok mopen j f hj hok hfail (j - 0) 0 rfl
      (by omega) startingDelay 0
    unfold mmapOpenWithRetry
    rcases hL : mmapRetryLoop mopen (mopen 0) 0 startingDelay 0 with ⟨r, n, slept⟩
    rw [hL] at h1
    simp only at h1
    subst h1
    rfl

/-- An open oracle that fails on every attempt, for the C4 witness. -/
def failOpen : Nat → Except String Nat := fun k => .error (toString k)

/-- An open oracle that fails three times and then succeeds, for the C4
witness. -/
def flakyOpen : Nat → Except String Nat := fun k =>
  if k < 3 then .error "busy" else .ok 7

/-- Witness for C4: full retry exhaustion on the always-failing oracle, and
success on the oracle that recovers on its fourth attempt. -/
theorem mmapOpenWithRetry_retry_policy_witness :
    mmapOpenWithRetry failOpen =
      ⟨.error ("mmap() error: " ++ toString maxRetries), maxRetries,
       2550 * millisecond⟩ ∧
    (mmapOpenWithRetry flakyOpen).result = .ok 7 :=
  ⟨(mmapOpenWithRetry_retry_policy failOpen toString 0 0).1 (fun _ _ => rfl),
   (mmapOpenWithRetry_retry_policy flakyOpen (fun _ => "busy") 3 7).2
     (by decide) rfl (fun k hk => ⟨"busy", by simp [flakyOpen, hk]⟩)⟩

/-- C8: writeTempFileAtomic retries temp-file creation exactly once, and
only when the first creation attempt fails with a not-exist error (it then
creates the directory and retries once); a first creation failure of any
other kind, a write failure, or a close failure yields the corresponding
wrapped error with no retry, and a failure of the single retry is wrapped
without a third creation attempt. Exercised on the scripted filesystem,
whose instrumentation counts the creation and directory-creation calls. -/
theorem writeTempFileAtomic_single_retry (data : Bytes) (m1 m2 mw mc : String)
    (b2 : Bool) :
    ((writeTempFileAtomic scriptOs
        (mkScript [] [] [] [] [] [] (.ok [])) data).1 = .ok ("tmp" ++ toString 0) ∧
     (writeTempFileAtomic scriptOs
        (mkScript [] [] [] [] [] [] (.ok [])) data).2.createCalls = 1 ∧
     (writeTempFileAtomic scriptOs
        (mkScript [] [] [] [] [] [] (.ok [])) data).2.mkdirCalls = 0) ∧
    ((writeTempFileAtomic scriptOs
        (mkScript [] [.error ⟨true, m1⟩] [] [] [] [] (.ok [])) data).1 =
          .ok ("tmp" ++ toString 1) ∧
     (writeTempFileAtomic scriptOs
        (mkScript [] [.error ⟨true, m1⟩] [] [] [] [] (.ok [])) data).2.createCalls = 2 ∧
     (writeTempFileAtomic scriptOs
        (mkScript [] [.error ⟨true, m1⟩] [] [] [] [] (.ok [])) data).2.mkdirCalls = 1) ∧
    ((writeTempFileAtomic scriptOs
        (mkScript [] [.error ⟨false, m1⟩] [] [] [] [] (.ok [])) data).1 =
          .error ("can't create tmp file: " ++ m1) ∧
     (writeTempFileAtomic scriptOs
        (mkScript [] [.error ⟨false, m1⟩] [] [] [] [] (.ok [])) data).2.createCalls = 1 ∧
     (writeTempFileAtomic scriptOs
        (mkScript [] [.error ⟨false, m1⟩] [] [] [] [] (.ok [])) data).2.mkdirCalls = 0) ∧
    ((writeTempFileAtomic scriptOs
        (mkScript [] [.error ⟨true, m1⟩, .error ⟨b2, m2⟩] [] [] [] [] (.ok [])) data).1 =
          .error ("can't create tmp file: " ++ m2) ∧
     (writeTempFileAtomic scriptOs
        (mkScript [] [.error ⟨true, m1⟩, .error ⟨b2, m2⟩] [] [] [] [] (.ok [])) data).2.createCalls = 2 ∧
     (writeTempFileAtomic scriptOs
        (mkScript [] [.error ⟨true, m1⟩, .error ⟨b2, m2⟩] [] [] [] [] (.ok [])) data).2.mkdirCalls = 1) ∧
    ((writeTempFileAtomic scriptOs
        (mkScript [] [] [some mw] [] [] [] (.ok [])) data).1 =
          .error ("can't write to temp file: " ++ mw) ∧
     (writeTempFileAtomic scriptOs
        (mkScript [] [] [some mw] [] [] [] (.ok [])) data).2.createCalls = 1 ∧
     (writeTempFileAtomic scriptOs
        (mkScript [] [] [some mw] [] [] [] (.ok [])) data).2.mkdirCalls = 0) ∧
    ((writeTempFileAtomic scriptOs
        (mkScript [] [] [] [some mc] [] [] (.ok [])) data).1 =
          .error "can't close tmp file" ∧
     (writeTempFileAtomic scriptOs
        (mkScript [] [] [] [some mc] [] [] (.ok [])) data).2.createCalls = 1 ∧
     (writeTempFileAtomic scriptOs
        (mkScript [] [] [] [some mc] [] [] (.ok [])) data).2.mkdirCalls = 0) :=
  ⟨⟨rfl, rfl, rfl⟩, ⟨rfl, rfl, rfl⟩, ⟨rfl, rfl, rfl⟩, ⟨rfl, rfl, rfl⟩,
   ⟨rfl, rfl, rfl⟩, ⟨rfl, rfl, rfl⟩⟩

end KopiaCache
